import Mathlib

/-!
Shallow embedding of `app.py` from the trading-alerts repository.

The program polls 5-minute OHLCV candles per ticker, detects a spike
(`candle_move_pct >= 10.0` on the previous candle) followed by a death
candle (current close below current open), and sends Discord alerts,
deduplicated by in-memory dictionaries keyed by `f"{ticker}_{time}"`.

Modelling choices:
* Prices and volumes are rationals (the Python code uses floats; all the
  properties verified here are threshold comparisons and exact arithmetic
  identities on plain decimal inputs).
* Bar timestamps are naturals.
* A pandas NaN (undefined rolling mean for early rows) is `Option.none`.
* The network is an oracle: the candle fetch is an `Except` value and the
  Discord POST outcome is a function from the alert to an `Except` value.
* The two module-level dicts `alerted_spikes` / `alerted_deaths` are
  association lists, threaded through explicitly as `AlertState`.
-/

/-- One raw OHLCV bar as returned by `yf.download` (one row of the frame);
`time` is the bar's index timestamp. -/
structure RawCandle where
  Open : ℚ
  High : ℚ
  Low : ℚ
  Close : ℚ
  Volume : ℚ
  time : ℕ
  deriving DecidableEq, Repr, Inhabited

/-- A bar together with the derived columns added by `get_5min_candles`:
`volume_avg_20` (rolling mean, NaN = `none` while the window is not full),
`volume_ratio` (volume / rolling mean) and `candle_move_pct`. -/
structure DCandle where
  Open : ℚ
  High : ℚ
  Low : ℚ
  Close : ℚ
  Volume : ℚ
  time : ℕ
  volume_avg_20 : Option ℚ
  volume_ratio : Option ℚ
  candle_move_pct : ℚ
  deriving DecidableEq, Repr, Inhabited

/-- `df['Volume'].rolling(20).mean()` at row `i`: the mean of rows
`i-19 .. i` once twenty rows are available (`19 ≤ i`), NaN before that. -/
def rollingMean20 (vols : List ℚ) (i : ℕ) : Option ℚ :=
  if 19 ≤ i then some ((((vols.take (i + 1)).drop (i - 19)).sum) / 20) else none

/-- The three derived columns added by `get_5min_candles` to the fetched
frame, row by row. -/
def addIndicators (raw : List RawCandle) : List DCandle :=
  (List.range raw.length).map fun i =>
    let c := raw.getD i default
    { Open := c.Open, High := c.High, Low := c.Low, Close := c.Close,
      Volume := c.Volume, time := c.time,
      volume_avg_20 := rollingMean20 (raw.map (·.Volume)) i,
      volume_ratio := (rollingMean20 (raw.map (·.Volume)) i).map (fun a => c.Volume / a),
      candle_move_pct := (c.Close - c.Open) / c.Open * 100 }

/-- `get_5min_candles`: the download either raises (caught, `None`) or
yields rows; an empty frame also gives `None`; otherwise the indicator
columns are added and the last `limit` rows are kept (`df.tail(limit)`). -/
def get_5min_candles (fetch : Except String (List RawCandle)) (limit : ℕ) :
    Option (List DCandle) :=
  match fetch with
  | .error _ => none
  | .ok raw =>
    if raw.isEmpty then none
    else some ((addIndicators raw).drop (raw.length - limit))

/-- An alert sent to Discord, reduced to the data the embed carries that
depends on the detection (the fixed text is omitted): a SPIKE alert shows
the move, the volume ratio and the close of `prev`; an ENTRY SIGNAL alert
shows the entry (current open), the stop (prev high) and the risk. -/
inductive Alert where
  | spike (ticker : String) (time : ℕ) (move_pct : ℚ) (volume_ratio : Option ℚ) (close : ℚ)
  | entry (ticker : String) (time : ℕ) (entryPrice : ℚ) (stopPrice : ℚ) (risk_pct : ℚ)
  deriving DecidableEq, Repr

/-- `send_discord_alert`: the POST and `raise_for_status` sit inside a
`try/except`, so the function returns normally on success and on failure
alike; the Boolean records whether `"Alert sent"` was logged. -/
def send_discord_alert (post : Except String Unit) : Bool :=
  match post with
  | .ok _ => true
  | .error _ => false

/-- The two module-level dedup dictionaries, `alerted_spikes` and
`alerted_deaths`: string key `f"{ticker}_{time}"` mapped to the
`current_time` recorded when the alert fired. -/
structure AlertState where
  alerted_spikes : List (String × ℕ)
  alerted_deaths : List (String × ℕ)
  deriving DecidableEq, Repr

/-- Python `key in dict` on the association-list model. -/
def hasKey (m : List (String × ℕ)) (k : String) : Bool :=
  m.any (fun p => p.1 == k)

/-- The dedup key `f"{ticker}_{time}"`. -/
def mkKey (ticker : String) (t : ℕ) : String :=
  ticker ++ "_" ++ toString t

/-- The `spike_key not in alerted_spikes` block of
`check_spike_and_death_candle`: send the SPIKE alert and record the key. -/
def spikeStep (post : Alert → Except String Unit) (ticker : String)
    (prev_time current_time : ℕ) (prev_candle : DCandle) (st : AlertState) :
    List (Alert × Bool) × AlertState :=
  let spike_key := mkKey ticker prev_time
  if hasKey st.alerted_spikes spike_key then ([], st)
  else
    let a := Alert.spike ticker prev_time prev_candle.candle_move_pct
      prev_candle.volume_ratio prev_candle.Close
    ([(a, send_discord_alert (post a))],
      { st with alerted_spikes := st.alerted_spikes ++ [(spike_key, current_time)] })

/-- The `death_key not in alerted_deaths` block: compute `risk_pct` from
the high of `prev` and the close of `current`, send the ENTRY SIGNAL alert
and record the key. -/
def deathStep (post : Alert → Except String Unit) (ticker : String)
    (current_time : ℕ) (prev_candle current_candle : DCandle) (st : AlertState) :
    List (Alert × Bool) × AlertState :=
  let death_key := mkKey ticker current_time
  if hasKey st.alerted_deaths death_key then ([], st)
  else
    let hod_price := prev_candle.High
    let risk_pct := (hod_price - current_candle.Close) / current_candle.Close * 100
    let a := Alert.entry ticker current_time current_candle.Open hod_price risk_pct
    ([(a, send_discord_alert (post a))],
      { st with alerted_deaths := st.alerted_deaths ++ [(death_key, current_time)] })

/-- `check_spike_and_death_candle` for one ticker: takes the fetched frame
(`none` on failure), the dedup state, and the POST oracle; returns the
alerts attempted (with their delivery outcome) and the updated state.
Mirrors the source: no-op under two rows, spike branch on
`prev.candle_move_pct >= 10.0`, death branch nested inside it on
`current.Close < current.Open`, each guarded by its dedup key. -/
def check_spike_and_death_candle (post : Alert → Except String Unit)
    (ticker : String) (df : Option (List DCandle)) (st : AlertState) :
    List (Alert × Bool) × AlertState :=
  match df with
  | none => ([], st)
  | some cs =>
    if cs.length < 2 then ([], st)
    else
      let current_candle := cs.getD (cs.length - 1) default
      let prev_candle := cs.getD (cs.length - 2) default
      let current_time := current_candle.time
      let prev_time := prev_candle.time
      let spike_move := prev_candle.candle_move_pct
      let is_death_candle := current_candle.Close < current_candle.Open
      if 10 ≤ spike_move then
        let r1 := spikeStep post ticker prev_time current_time prev_candle st
        if is_death_candle then
          let r2 := deathStep post ticker current_time prev_candle current_candle r1.2
          (r1.1 ++ r2.1, r2.2)
        else r1
      else ([], st)

/-- The `for stock in STOCKS` body of one cycle of `main_loop`: each ticker
is fetched and checked in order, threading the dedup state. -/
def run_cycle (post : Alert → Except String Unit)
    (fetches : String → Except String (List RawCandle))
    (stocks : List String) (st : AlertState) :
    List (Alert × Bool) × AlertState :=
  match stocks with
  | [] => ([], st)
  | s :: rest =>
    let r1 := check_spike_and_death_candle post s (get_5min_candles (fetches s) 100) st
    let r2 := run_cycle post fetches rest r1.2
    (r1.1 ++ r2.1, r2.2)

/-- A sequence of evaluations across the process lifetime: each item is a
ticker with the candle frame its fetch produced at that moment. -/
def runEvals (post : Alert → Except String Unit)
    (evals : List (String × Option (List DCandle))) (st : AlertState) :
    List (Alert × Bool) × AlertState :=
  match evals with
  | [] => ([], st)
  | (tk, df) :: rest =>
    let r1 := check_spike_and_death_candle post tk df st
    let r2 := runEvals post rest r1.2
    (r1.1 ++ r2.1, r2.2)

/-- Does this alert match a SPIKE alert for the given (ticker, candle
timestamp) pair? -/
def isSpikeFor (ticker : String) (t : ℕ) : Alert → Bool
  | .spike tk u _ _ _ => tk == ticker && u == t
  | _ => false

/-- Does this alert match an ENTRY SIGNAL alert for the given (ticker,
candle timestamp) pair? -/
def isEntryFor (ticker : String) (t : ℕ) : Alert → Bool
  | .entry tk u _ _ _ => tk == ticker && u == t
  | _ => false

/-- Is this a SPIKE alert at all? -/
def Alert.isSpike : Alert → Bool
  | .spike _ _ _ _ _ => true
  | _ => false

/-- Is this an ENTRY SIGNAL alert at all? -/
def Alert.isEntry : Alert → Bool
  | .entry _ _ _ _ _ => true
  | _ => false

/-- The identity of an alert: its kind (`true` for ENTRY), ticker, and the
candle timestamp it is keyed by. -/
def Alert.keyOf : Alert → Bool × String × ℕ
  | .spike tk u _ _ _ => (false, tk, u)
  | .entry tk u _ _ _ => (true, tk, u)

/-- The dedup-dictionary key an alert is recorded under. -/
def Alert.dedupKey : Alert → String
  | .spike tk u _ _ _ => mkKey tk u
  | .entry tk u _ _ _ => mkKey tk u

/-- A wall-clock reading in the exchange's local timezone (US/Eastern), as
read by `datetime.now(et)`: `weekday` counts Monday = 0 .. Sunday = 6. -/
structure ETTime where
  weekday : ℕ
  hour : ℕ
  minute : ℕ
  second : ℕ
  microsecond : ℕ
  deriving DecidableEq, Repr

/-- The time of day in microseconds, the granularity at which `datetime`
comparisons in `get_market_status` are decided. -/
def ETTime.micros (t : ETTime) : ℕ :=
  ((t.hour * 60 + t.minute) * 60 + t.second) * 1000000 + t.microsecond

/-- `get_market_status`: false on Saturday/Sunday (`weekday() >= 5`), else
compare `now` against `now.replace(hour=9, minute=30, second=0,
microsecond=0)` and `now.replace(hour=16, minute=0, second=0,
microsecond=0)`, both ends inclusive. -/
def get_market_status (now : ETTime) : Bool :=
  if 5 ≤ now.weekday then false
  else
    let market_open := ((9 * 60 + 30) * 60 + 0) * 1000000 + 0
    let market_close := ((16 * 60 + 0) * 60 + 0) * 1000000 + 0
    decide (market_open ≤ now.micros ∧ now.micros ≤ market_close)

/-- Lexicographic order on times of day, the spec's reading of "local time
within [09:30:00, 16:00:00]". -/
def timeLe (h₁ m₁ s₁ u₁ h₂ m₂ s₂ u₂ : ℕ) : Prop :=
  h₁ < h₂ ∨ (h₁ = h₂ ∧ (m₁ < m₂ ∨ (m₁ = m₂ ∧ (s₁ < s₂ ∨ (s₁ = s₂ ∧ u₁ ≤ u₂)))))

/-- Two raw bars that agree on everything except volume. -/
def sameShape (c c' : RawCandle) : Prop :=
  c.Open = c'.Open ∧ c.High = c'.High ∧ c.Low = c'.Low ∧
    c.Close = c'.Close ∧ c.time = c'.time

/-- Two derived bars that agree on everything except the volume-derived
columns. -/
def sameShapeD (c c' : DCandle) : Prop :=
  c.Open = c'.Open ∧ c.High = c'.High ∧ c.Low = c'.Low ∧
    c.Close = c'.Close ∧ c.time = c'.time ∧
    c.candle_move_pct = c'.candle_move_pct

/-! ## Basic lemmas about the dedup steps -/

theorem hasKey_append (m : List (String × ℕ)) (k k' : String) (t : ℕ) :
    hasKey (m ++ [(k', t)]) k = (hasKey m k || k' == k) := by
  simp [hasKey, List.any_append]

theorem spikeStep_deaths (post : Alert → Except String Unit) (tk : String)
    (pt ct : ℕ) (pc : DCandle) (st : AlertState) :
    (spikeStep post tk pt ct pc st).2.alerted_deaths = st.alerted_deaths := by
  simp only [spikeStep]
  split <;> rfl

theorem deathStep_spikes (post : Alert → Except String Unit) (tk : String)
    (ct : ℕ) (pc cc : DCandle) (st : AlertState) :
    (deathStep post tk ct pc cc st).2.alerted_spikes = st.alerted_spikes := by
  simp only [deathStep]
  split <;> rfl

theorem spikeStep_fst_no_entry (post : Alert → Except String Unit) (tk : String)
    (pt ct : ℕ) (pc : DCandle) (st : AlertState) :
    ∀ p ∈ (spikeStep post tk pt ct pc st).1, p.1.isEntry = false := by
  simp only [spikeStep]
  split
  · simp
  · simp [Alert.isEntry]

theorem deathStep_fst_no_spike (post : Alert → Except String Unit) (tk : String)
    (ct : ℕ) (pc cc : DCandle) (st : AlertState) :
    ∀ p ∈ (deathStep post tk ct pc cc st).1, p.1.isSpike = false := by
  simp only [deathStep]
  split
  · simp
  · simp [Alert.isSpike]

/-! ## C5 and C6 -/

/-- C6: with fewer than two candles in the window — including a failed
fetch, where the frame is absent — the evaluation emits nothing and leaves
both dedup dictionaries untouched. -/
theorem C6_small_window_noop (post : Alert → Except String Unit)
    (ticker : String) (st : AlertState) :
    check_spike_and_death_candle post ticker none st = ([], st) ∧
    ∀ cs : List DCandle, cs.length < 2 →
      check_spike_and_death_candle post ticker (some cs) st = ([], st) := by
  refine ⟨rfl, fun cs h => ?_⟩
  simp [check_spike_and_death_candle, h]

/-- Witness for C6 at a failed fetch and at a one-candle window. -/
theorem C6_small_window_noop_witness :
    check_spike_and_death_candle (fun _ => Except.ok ()) "AAPL" none
        ⟨[], []⟩ = ([], ⟨[], []⟩) ∧
    check_spike_and_death_candle (fun _ => Except.ok ()) "AAPL" (some [default])
        ⟨[], []⟩ = ([], ⟨[], []⟩) :=
  ⟨(C6_small_window_noop (fun _ => Except.ok ()) "AAPL" ⟨[], []⟩).1,
   (C6_small_window_noop (fun _ => Except.ok ()) "AAPL" ⟨[], []⟩).2 [default] (by decide)⟩

/-- C5: `get_market_status` is false on Saturday/Sunday whatever the time
of day; on a weekday (with in-range minute/second/microsecond fields) it is
true exactly when the local time of day lies in [09:30:00, 16:00:00], both
ends inclusive; a Wednesday 09:30:00 reads open and a Wednesday 16:00:01
reads closed. -/
theorem C5_market_hours (t : ETTime) :
    (5 ≤ t.weekday → get_market_status t = false) ∧
    (t.minute < 60 → t.second < 60 → t.microsecond < 1000000 →
      (get_market_status t = true ↔
        t.weekday < 5 ∧ timeLe 9 30 0 0 t.hour t.minute t.second t.microsecond ∧
          timeLe t.hour t.minute t.second t.microsecond 16 0 0 0)) ∧
    get_market_status ⟨2, 9, 30, 0, 0⟩ = true ∧
    get_market_status ⟨2, 16, 0, 1, 0⟩ = false := by
  refine ⟨fun h => by simp [get_market_status, h], fun hm hs hu => ?_, by decide, by decide⟩
  by_cases hw : 5 ≤ t.weekday
  · simp only [get_market_status, if_pos hw]
    constructor
    · intro h
      exact absurd h (by simp)
    · intro h
      omega
  · simp only [get_market_status, if_neg hw, decide_eq_true_eq, ETTime.micros, timeLe]
    omega

/-- Witness for C5: Saturday noon is closed, and the weekday
characterisation instantiated on a Wednesday at 10:00:00. -/
theorem C5_market_hours_witness :
    get_market_status ⟨5, 12, 0, 0, 0⟩ = false ∧
    (get_market_status ⟨2, 10, 0, 0, 0⟩ = true ↔
      (2 : ℕ) < 5 ∧ timeLe 9 30 0 0 10 0 0 0 ∧ timeLe 10 0 0 0 16 0 0 0) :=
  ⟨(C5_market_hours ⟨5, 12, 0, 0, 0⟩).1 (by decide),
   (C5_market_hours ⟨2, 10, 0, 0, 0⟩).2.1 (by decide) (by decide) (by decide)⟩

/-! ## Characterisation of the two dedup blocks and of one evaluation -/

/-- The previous candle of a window, `df.iloc[-2]`. -/
def prevOf (cs : List DCandle) : DCandle :=
  cs.getD (cs.length - 2) default

/-- The current candle of a window, `df.iloc[-1]`. -/
def curOf (cs : List DCandle) : DCandle :=
  cs.getD (cs.length - 1) default

theorem spikeStep_fst (post : Alert → Except String Unit) (tk : String)
    (pt ct : ℕ) (pc : DCandle) (st : AlertState) :
    (spikeStep post tk pt ct pc st).1 =
      if hasKey st.alerted_spikes (mkKey tk pt) then []
      else
        [(Alert.spike tk pt pc.candle_move_pct pc.volume_ratio pc.Close,
          send_discord_alert (post
            (Alert.spike tk pt pc.candle_move_pct pc.volume_ratio pc.Close)))] := by
  simp only [spikeStep]
  split <;> simp_all

theorem spikeStep_snd (post : Alert → Except String Unit) (tk : String)
    (pt ct : ℕ) (pc : DCandle) (st : AlertState) :
    (spikeStep post tk pt ct pc st).2 =
      if hasKey st.alerted_spikes (mkKey tk pt) then st
      else { st with alerted_spikes := st.alerted_spikes ++ [(mkKey tk pt, ct)] } := by
  simp only [spikeStep]
  split <;> simp_all

theorem deathStep_fst (post : Alert → Except String Unit) (tk : String)
    (ct : ℕ) (pc cc : DCandle) (st : AlertState) :
    (deathStep post tk ct pc cc st).1 =
      if hasKey st.alerted_deaths (mkKey tk ct) then []
      else
        [(Alert.entry tk ct cc.Open pc.High ((pc.High - cc.Close) / cc.Close * 100),
          send_discord_alert (post
            (Alert.entry tk ct cc.Open pc.High ((pc.High - cc.Close) / cc.Close * 100))))] := by
  simp only [deathStep]
  split <;> simp_all

theorem deathStep_snd (post : Alert → Except String Unit) (tk : String)
    (ct : ℕ) (pc cc : DCandle) (st : AlertState) :
    (deathStep post tk ct pc cc st).2 =
      if hasKey st.alerted_deaths (mkKey tk ct) then st
      else { st with alerted_deaths := st.alerted_deaths ++ [(mkKey tk ct, ct)] } := by
  simp only [deathStep]
  split <;> simp_all

theorem spikeStep_any_entry_false (post : Alert → Except String Unit) (tk : String)
    (pt ct : ℕ) (pc : DCandle) (st : AlertState) :
    ((spikeStep post tk pt ct pc st).1.any fun p => p.1.isEntry) = false := by
  simp only [spikeStep]
  split <;> simp [Alert.isEntry]

/-- One evaluation on a window of at least two candles, with the two inner
blocks folded into `spikeStep` / `deathStep`. -/
theorem check_eq_of_two_le (post : Alert → Except String Unit) (ticker : String)
    (cs : List DCandle) (st : AlertState) (h2 : 2 ≤ cs.length) :
    check_spike_and_death_candle post ticker (some cs) st =
      if 10 ≤ (prevOf cs).candle_move_pct then
        if (curOf cs).Close < (curOf cs).Open then
          ((spikeStep post ticker (prevOf cs).time (curOf cs).time (prevOf cs) st).1 ++
             (deathStep post ticker (curOf cs).time (prevOf cs) (curOf cs)
               (spikeStep post ticker (prevOf cs).time (curOf cs).time (prevOf cs) st).2).1,
           (deathStep post ticker (curOf cs).time (prevOf cs) (curOf cs)
             (spikeStep post ticker (prevOf cs).time (curOf cs).time (prevOf cs) st).2).2)
        else spikeStep post ticker (prevOf cs).time (curOf cs).time (prevOf cs) st
      else ([], st) := by
  simp only [check_spike_and_death_candle, prevOf, curOf]
  rw [if_neg (by omega : ¬ cs.length < 2)]

/-! ## C2: when the ENTRY SIGNAL fires -/

/-- C2: on a window of at least two candles, an ENTRY SIGNAL alert is
emitted exactly when the spike threshold holds on `prev`, `current` closes
red, and the death key (ticker, current time) is fresh — independently of
whether the SPIKE alert was newly sent or already deduplicated, and never
when the spike threshold fails on `prev`. -/
theorem C2_entry_fires_iff (post : Alert → Except String Unit) (ticker : String)
    (cs : List DCandle) (st : AlertState) (h2 : 2 ≤ cs.length) :
    (((check_spike_and_death_candle post ticker (some cs) st).1.any
        fun p => p.1.isEntry) = true) ↔
      (10 ≤ (prevOf cs).candle_move_pct ∧ (curOf cs).Close < (curOf cs).Open ∧
        hasKey st.alerted_deaths (mkKey ticker (curOf cs).time) = false) := by
  rw [check_eq_of_two_le post ticker cs st h2]
  by_cases hmove : 10 ≤ (prevOf cs).candle_move_pct
  · rw [if_pos hmove]
    by_cases hdeath : (curOf cs).Close < (curOf cs).Open
    · rw [if_pos hdeath]
      simp only [List.any_append, Bool.or_eq_true, spikeStep_any_entry_false,
        Bool.false_eq_true, false_or]
      rw [deathStep_fst, spikeStep_deaths]
      by_cases hkey : hasKey st.alerted_deaths (mkKey ticker (curOf cs).time)
      · simp [hkey]
      · simp [hkey, Alert.isEntry, hmove, hdeath]
    · rw [if_neg hdeath]
      simp [hdeath, spikeStep_any_entry_false]
  · rw [if_neg hmove]
    simp [hmove]

/-! ## Concrete fixtures used by witnesses -/

/-- A POST oracle for which every delivery succeeds. -/
def postOk : Alert → Except String Unit := fun _ => Except.ok ()

/-- A POST oracle for which every delivery fails. -/
def postDown : Alert → Except String Unit := fun _ => Except.error "connection refused"

/-- A +20% spike candle with integer prices. -/
def wSpike : DCandle :=
  { Open := 10, High := 12, Low := 9, Close := 12, Volume := 3, time := 1,
    volume_avg_20 := some 1, volume_ratio := some 3, candle_move_pct := 20 }

/-- A red (death) candle with integer prices, following `wSpike`. -/
def wDeath : DCandle :=
  { Open := 10, High := 10, Low := 8, Close := 9, Volume := 1, time := 2,
    volume_avg_20 := some 1, volume_ratio := some 1, candle_move_pct := -10 }

/-- A candle that moved exactly +10.0%. -/
def pTen : DCandle :=
  { Open := 10, High := 11, Low := 10, Close := 11, Volume := 1, time := 1,
    volume_avg_20 := some 1, volume_ratio := some 1, candle_move_pct := 10 }

/-- A candle that moved +9.999%, just under the threshold. -/
def pNine : DCandle :=
  { Open := 100000, High := 110000, Low := 100000, Close := 109999, Volume := 1, time := 1,
    volume_avg_20 := some 1, volume_ratio := some 1, candle_move_pct := 9999 / 1000 }

/-- The spec's worked example: a +15% spike candle with high 12.00. -/
def exSpike : DCandle :=
  { Open := 10, High := 12, Low := 9, Close := 23 / 2, Volume := 2, time := 1,
    volume_avg_20 := some 1, volume_ratio := some 2, candle_move_pct := 15 }

/-- The spec's worked example: the confirming candle, open 10.00, close 9.50. -/
def exDeath : DCandle :=
  { Open := 10, High := 10, Low := 9, Close := 19 / 2, Volume := 1, time := 2,
    volume_avg_20 := some 1, volume_ratio := some 1, candle_move_pct := -5 }

/-- Witness for C2: on `wSpike` then `wDeath` with fresh dedup state, the
ENTRY SIGNAL fires. -/
theorem C2_entry_fires_iff_witness :
    ((check_spike_and_death_candle postOk "TSLA" (some [wSpike, wDeath]) ⟨[], []⟩).1.any
      fun p => p.1.isEntry) = true :=
  (C2_entry_fires_iff postOk "TSLA" [wSpike, wDeath] ⟨[], []⟩ (by decide)).mpr
    ⟨by decide, by decide, rfl⟩

/-! ## C3: the spike threshold is inclusive -/

/-- C3: on a window of at least two candles whose spike key is fresh, a
SPIKE alert is emitted exactly when `prev.candle_move_pct >= 10.0` — so it
fires at exactly 10.0 and stays silent at 9.999. -/
theorem C3_spike_threshold_inclusive (post : Alert → Except String Unit)
    (ticker : String) (cs : List DCandle) (st : AlertState) (h2 : 2 ≤ cs.length)
    (hfresh : hasKey st.alerted_spikes (mkKey ticker (prevOf cs).time) = false) :
    ((check_spike_and_death_candle post ticker (some cs) st).1.any
        fun p => p.1.isSpike) =
      decide (10 ≤ (prevOf cs).candle_move_pct) := by
  rw [check_eq_of_two_le post ticker cs st h2]
  by_cases hmove : 10 ≤ (prevOf cs).candle_move_pct
  · rw [if_pos hmove]
    by_cases hdeath : (curOf cs).Close < (curOf cs).Open
    · rw [if_pos hdeath]
      simp only [List.any_append, Bool.or_eq_true]
      rw [spikeStep_fst, if_neg (by simp [hfresh])]
      simp [Alert.isSpike, hmove]
    · rw [if_neg hdeath, spikeStep_fst, if_neg (by simp [hfresh])]
      simp [Alert.isSpike, hmove]
  · rw [if_neg hmove]
    simp [hmove]

/-- Witness for C3: with a fresh state, the +10.0% candle fires a SPIKE
alert and the +9.999% candle does not. -/
theorem C3_spike_threshold_inclusive_witness :
    ((check_spike_and_death_candle postOk "AAPL" (some [pTen, wDeath]) ⟨[], []⟩).1.any
      fun p => p.1.isSpike) = true ∧
    ((check_spike_and_death_candle postOk "AAPL" (some [pNine, wDeath]) ⟨[], []⟩).1.any
      fun p => p.1.isSpike) = false := by
  constructor
  · rw [C3_spike_threshold_inclusive postOk "AAPL" [pTen, wDeath] ⟨[], []⟩ (by decide) rfl]
    decide
  · rw [C3_spike_threshold_inclusive postOk "AAPL" [pNine, wDeath] ⟨[], []⟩ (by decide) rfl]
    rw [decide_eq_false_iff_not]
    norm_num [prevOf, pNine]

/-! ## C4: contents of an ENTRY SIGNAL alert -/

/-- C4: every emitted ENTRY SIGNAL alert carries entry = `current.Open`,
stop = `prev.High` and risk = `(prev.High - current.Close) / current.Close
* 100`; on the spec's worked example (+15% spike, high 12.00, confirming
candle open 10.00 / close 9.50) the ENTRY alert fires with entry 10.00,
stop 12.00 and risk (12.00 - 9.50)/9.50 × 100 = 500/19, which rounds to
26.32%. -/
theorem C4_entry_alert_contents (post : Alert → Except String Unit)
    (ticker : String) (cs : List DCandle) (st : AlertState) (a : Alert) (b : Bool)
    (tk : String) (ts : ℕ) (e s r : ℚ)
    (hmem : (a, b) ∈ (check_spike_and_death_candle post ticker (some cs) st).1)
    (ha : a = Alert.entry tk ts e s r) :
    (tk = ticker ∧ ts = (curOf cs).time ∧ e = (curOf cs).Open ∧ s = (prevOf cs).High ∧
      r = ((prevOf cs).High - (curOf cs).Close) / (curOf cs).Close * 100) ∧
    ((Alert.entry "TSLA" 2 10 12 (500 / 19), true) ∈
        (check_spike_and_death_candle postOk "TSLA" (some [exSpike, exDeath]) ⟨[], []⟩).1 ∧
      ((12 : ℚ) - 19 / 2) / (19 / 2) * 100 = 500 / 19 ∧
      (⌊(500 / 19 : ℚ) * 100 + 1 / 2⌋ : ℤ) = 2632) := by
  constructor
  · subst ha
    by_cases h2 : cs.length < 2
    · simp [check_spike_and_death_candle, h2] at hmem
    · rw [check_eq_of_two_le post ticker cs st (by omega)] at hmem
      by_cases hmove : 10 ≤ (prevOf cs).candle_move_pct
      · rw [if_pos hmove] at hmem
        by_cases hdeath : (curOf cs).Close < (curOf cs).Open
        · rw [if_pos hdeath] at hmem
          rcases List.mem_append.mp hmem with hm | hm
          · have h := spikeStep_fst_no_entry post ticker (prevOf cs).time (curOf cs).time
              (prevOf cs) st _ hm
            simp [Alert.isEntry] at h
          · rw [deathStep_fst, spikeStep_deaths] at hm
            by_cases hkey : hasKey st.alerted_deaths (mkKey ticker (curOf cs).time)
            · rw [if_pos hkey] at hm
              simp at hm
            · rw [if_neg hkey] at hm
              simp only [List.mem_singleton, Prod.mk.injEq, Alert.entry.injEq] at hm
              obtain ⟨⟨h1, h2', h3, h4, h5⟩, -⟩ := hm
              exact ⟨h1, h2', h3, h4, h5⟩
        · rw [if_neg hdeath] at hmem
          have h := spikeStep_fst_no_entry post ticker (prevOf cs).time (curOf cs).time
            (prevOf cs) st _ hmem
          simp [Alert.isEntry] at h
      · rw [if_neg hmove] at hmem
        simp at hmem
  · refine ⟨?_, by norm_num, ?_⟩
    · norm_num [check_spike_and_death_candle, spikeStep, deathStep, hasKey, mkKey,
        send_discord_alert, postOk, exSpike, exDeath]
    · rw [Int.floor_eq_iff]
      norm_num

/-- Witness for C4 on the spec's worked example. -/
theorem C4_entry_alert_contents_witness :
    ("TSLA" = "TSLA" ∧ 2 = (curOf [exSpike, exDeath]).time ∧
      (10 : ℚ) = (curOf [exSpike, exDeath]).Open ∧
      (12 : ℚ) = (prevOf [exSpike, exDeath]).High ∧
      (500 / 19 : ℚ) =
        ((prevOf [exSpike, exDeath]).High - (curOf [exSpike, exDeath]).Close) /
          (curOf [exSpike, exDeath]).Close * 100) ∧
    ((Alert.entry "TSLA" 2 10 12 (500 / 19), true) ∈
        (check_spike_and_death_candle postOk "TSLA" (some [exSpike, exDeath]) ⟨[], []⟩).1 ∧
      ((12 : ℚ) - 19 / 2) / (19 / 2) * 100 = 500 / 19 ∧
      (⌊(500 / 19 : ℚ) * 100 + 1 / 2⌋ : ℤ) = 2632) :=
  C4_entry_alert_contents postOk "TSLA" [exSpike, exDeath] ⟨[], []⟩
    (Alert.entry "TSLA" 2 10 12 (500 / 19)) true "TSLA" 2 10 12 (500 / 19)
    (by norm_num [check_spike_and_death_candle, spikeStep, deathStep, hasKey, mkKey,
      send_discord_alert, postOk, exSpike, exDeath]) rfl

/-! ## Deduplication invariants across evaluations -/

theorem isSpikeFor_iff (tick : String) (ts : ℕ) (a : Alert) :
    isSpikeFor tick ts a = true ↔
      ∃ mv vr cp, a = Alert.spike tick ts mv vr cp := by
  cases a with
  | spike tk u mv vr cp =>
    simp only [isSpikeFor, Bool.and_eq_true, beq_iff_eq, Alert.spike.injEq]
    constructor
    · rintro ⟨rfl, rfl⟩
      exact ⟨mv, vr, cp, rfl, rfl, rfl, rfl, rfl⟩
    · rintro ⟨_, _, _, rfl, rfl, -⟩
      exact ⟨rfl, rfl⟩
  | entry _ _ _ _ _ => simp [isSpikeFor]

theorem isEntryFor_iff (tick : String) (ts : ℕ) (a : Alert) :
    isEntryFor tick ts a = true ↔
      ∃ e s r, a = Alert.entry tick ts e s r := by
  cases a with
  | entry tk u e s r =>
    simp only [isEntryFor, Bool.and_eq_true, beq_iff_eq, Alert.entry.injEq]
    constructor
    · rintro ⟨rfl, rfl⟩
      exact ⟨e, s, r, rfl, rfl, rfl, rfl, rfl⟩
    · rintro ⟨_, _, _, rfl, rfl, -⟩
      exact ⟨rfl, rfl⟩
  | spike _ _ _ _ _ => simp [isEntryFor]

/-- The spike dedup dictionary only grows across one evaluation. -/
theorem check_spikes_mono (post : Alert → Except String Unit) (tk : String)
    (df : Option (List DCandle)) (st : AlertState) (k : String)
    (h : hasKey st.alerted_spikes k = true) :
    hasKey (check_spike_and_death_candle post tk df st).2.alerted_spikes k = true := by
  match df with
  | none => exact h
  | some cs =>
    by_cases h2 : cs.length < 2
    · simpa [check_spike_and_death_candle, h2] using h
    · rw [check_eq_of_two_le post tk cs st (by omega)]
      by_cases hmove : 10 ≤ (prevOf cs).candle_move_pct
      · rw [if_pos hmove]
        by_cases hdeath : (curOf cs).Close < (curOf cs).Open
        · rw [if_pos hdeath]
          rw [deathStep_spikes, spikeStep_snd]
          split
          · exact h
          · simp [hasKey_append, h]
        · rw [if_neg hdeath, spikeStep_snd]
          split
          · exact h
          · simp [hasKey_append, h]
      · rw [if_neg hmove]
        exact h

/-- The death dedup dictionary only grows across one evaluation. -/
theorem check_deaths_mono (post : Alert → Except String Unit) (tk : String)
    (df : Option (List DCandle)) (st : AlertState) (k : String)
    (h : hasKey st.alerted_deaths k = true) :
    hasKey (check_spike_and_death_candle post tk df st).2.alerted_deaths k = true := by
  match df with
  | none => exact h
  | some cs =>
    by_cases h2 : cs.length < 2
    · simpa [check_spike_and_death_candle, h2] using h
    · rw [check_eq_of_two_le post tk cs st (by omega)]
      by_cases hmove : 10 ≤ (prevOf cs).candle_move_pct
      · rw [if_pos hmove]
        by_cases hdeath : (curOf cs).Close < (curOf cs).Open
        · rw [if_pos hdeath]
          rw [deathStep_snd, spikeStep_deaths]
          split
          · rw [spikeStep_deaths]
            exact h
          · simp [hasKey_append, h]
        · rw [if_neg hdeath]
          rw [spikeStep_deaths]
          exact h
      · rw [if_neg hmove]
        exact h

/-- An emitted SPIKE alert's key was fresh before the evaluation and is
recorded after it. -/
theorem check_emit_spike (post : Alert → Except String Unit) (tk : String)
    (df : Option (List DCandle)) (st : AlertState) (b : Bool) (tick : String)
    (ts : ℕ) (mv : ℚ) (vr : Option ℚ) (cp : ℚ)
    (hmem : (Alert.spike tick ts mv vr cp, b) ∈
      (check_spike_and_death_candle post tk df st).1) :
    hasKey st.alerted_spikes (mkKey tick ts) = false ∧
    hasKey (check_spike_and_death_candle post tk df st).2.alerted_spikes
      (mkKey tick ts) = true := by
  match df with
  | none => simp [check_spike_and_death_candle] at hmem
  | some cs =>
    by_cases h2 : cs.length < 2
    · simp [check_spike_and_death_candle, h2] at hmem
    · rw [check_eq_of_two_le post tk cs st (by omega)] at hmem ⊢
      by_cases hmove : 10 ≤ (prevOf cs).candle_move_pct
      · rw [if_pos hmove] at hmem ⊢
        by_cases hdeath : (curOf cs).Close < (curOf cs).Open
        · rw [if_pos hdeath] at hmem ⊢
          rcases List.mem_append.mp hmem with hm | hm
          · rw [spikeStep_fst] at hm
            by_cases hkey : hasKey st.alerted_spikes (mkKey tk (prevOf cs).time)
            · rw [if_pos hkey] at hm
              simp at hm
            · rw [if_neg hkey] at hm
              simp only [List.mem_singleton, Prod.mk.injEq, Alert.spike.injEq] at hm
              obtain ⟨⟨h1, hts, -, -, -⟩, -⟩ := hm
              subst h1
              subst hts
              simp only [Bool.not_eq_true] at hkey
              refine ⟨hkey, ?_⟩
              rw [deathStep_spikes, spikeStep_snd, if_neg (by simp [hkey])]
              simp [hasKey_append]
          · have h := deathStep_fst_no_spike post tk (curOf cs).time (prevOf cs) (curOf cs)
              _ _ hm
            simp [Alert.isSpike] at h
        · rw [if_neg hdeath] at hmem ⊢
          rw [spikeStep_fst] at hmem
          by_cases hkey : hasKey st.alerted_spikes (mkKey tk (prevOf cs).time)
          · rw [if_pos hkey] at hmem
            simp at hmem
          · rw [if_neg hkey] at hmem
            simp only [List.mem_singleton, Prod.mk.injEq, Alert.spike.injEq] at hmem
            obtain ⟨⟨h1, hts, -, -, -⟩, -⟩ := hmem
            subst h1
            subst hts
            simp only [Bool.not_eq_true] at hkey
            refine ⟨hkey, ?_⟩
            rw [spikeStep_snd, if_neg (by simp [hkey])]
            simp [hasKey_append]
      · rw [if_neg hmove] at hmem
        simp at hmem

/-- An emitted ENTRY SIGNAL alert's key was fresh before the evaluation
and is recorded after it. -/
theorem check_emit_entry (post : Alert → Except String Unit) (tk : String)
    (df : Option (List DCandle)) (st : AlertState) (b : Bool) (tick : String)
    (ts : ℕ) (e s r : ℚ)
    (hmem : (Alert.entry tick ts e s r, b) ∈
      (check_spike_and_death_candle post tk df st).1) :
    hasKey st.alerted_deaths (mkKey tick ts) = false ∧
    hasKey (check_spike_and_death_candle post tk df st).2.alerted_deaths
      (mkKey tick ts) = true := by
  match df with
  | none => simp [check_spike_and_death_candle] at hmem
  | some cs =>
    by_cases h2 : cs.length < 2
    · simp [check_spike_and_death_candle, h2] at hmem
    · rw [check_eq_of_two_le post tk cs st (by omega)] at hmem ⊢
      by_cases hmove : 10 ≤ (prevOf cs).candle_move_pct
      · rw [if_pos hmove] at hmem ⊢
        by_cases hdeath : (curOf cs).Close < (curOf cs).Open
        · rw [if_pos hdeath] at hmem ⊢
          rcases List.mem_append.mp hmem with hm | hm
          · have h := spikeStep_fst_no_entry post tk (prevOf cs).time (curOf cs).time
              (prevOf cs) st _ hm
            simp [Alert.isEntry] at h
          · rw [deathStep_fst, spikeStep_deaths] at hm
            by_cases hkey : hasKey st.alerted_deaths (mkKey tk (curOf cs).time)
            · rw [if_pos hkey] at hm
              simp at hm
            · rw [if_neg hkey] at hm
              simp only [List.mem_singleton, Prod.mk.injEq, Alert.entry.injEq] at hm
              obtain ⟨⟨h1, hts, -, -, -⟩, -⟩ := hm
              subst h1
              subst hts
              simp only [Bool.not_eq_true] at hkey
              refine ⟨hkey, ?_⟩
              rw [deathStep_snd, spikeStep_deaths, if_neg (by simp [hkey])]
              simp [hasKey_append]
        · rw [if_neg hdeath] at hmem
          have h := spikeStep_fst_no_entry post tk (prevOf cs).time (curOf cs).time
            (prevOf cs) st _ hmem
          simp [Alert.isEntry] at h
      · rw [if_neg hmove] at hmem
        simp at hmem

theorem countP_singleton_le_one {α : Type} (p : α → Bool) (x : α) :
    List.countP p [x] ≤ 1 := by
  by_cases h : p x <;> simp [List.countP_cons, h]

/-- One evaluation emits at most one SPIKE alert for a given key. -/
theorem check_countP_spike_le_one (post : Alert → Except String Unit) (tk : String)
    (df : Option (List DCandle)) (st : AlertState) (tick : String) (ts : ℕ) :
    ((check_spike_and_death_candle post tk df st).1.countP
      fun p => isSpikeFor tick ts p.1) ≤ 1 := by
  match df with
  | none => simp [check_spike_and_death_candle]
  | some cs =>
    by_cases h2 : cs.length < 2
    · simp [check_spike_and_death_candle, h2]
    · rw [check_eq_of_two_le post tk cs st (by omega)]
      by_cases hmove : 10 ≤ (prevOf cs).candle_move_pct
      · rw [if_pos hmove]
        by_cases hdeath : (curOf cs).Close < (curOf cs).Open
        · rw [if_pos hdeath]
          rw [List.countP_append]
          have hs : ((spikeStep post tk (prevOf cs).time (curOf cs).time (prevOf cs) st).1.countP
              fun p => isSpikeFor tick ts p.1) ≤ 1 := by
            rw [spikeStep_fst]
            split
            · simp
            · exact countP_singleton_le_one _ _
          have hd : ((deathStep post tk (curOf cs).time (prevOf cs) (curOf cs)
              (spikeStep post tk (prevOf cs).time (curOf cs).time (prevOf cs) st).2).1.countP
              fun p => isSpikeFor tick ts p.1) = 0 := by
            rw [deathStep_fst]
            split
            · simp
            · simp [List.countP_cons, isSpikeFor]
          omega
        · rw [if_neg hdeath, spikeStep_fst]
          split
          · simp
          · exact countP_singleton_le_one _ _
      · rw [if_neg hmove]
        simp

/-- One evaluation emits at most one ENTRY SIGNAL alert for a given key. -/
theorem check_countP_entry_le_one (post : Alert → Except String Unit) (tk : String)
    (df : Option (List DCandle)) (st : AlertState) (tick : String) (ts : ℕ) :
    ((check_spike_and_death_candle post tk df st).1.countP
      fun p => isEntryFor tick ts p.1) ≤ 1 := by
  match df with
  | none => simp [check_spike_and_death_candle]
  | some cs =>
    by_cases h2 : cs.length < 2
    · simp [check_spike_and_death_candle, h2]
    · rw [check_eq_of_two_le post tk cs st (by omega)]
      by_cases hmove : 10 ≤ (prevOf cs).candle_move_pct
      · rw [if_pos hmove]
        by_cases hdeath : (curOf cs).Close < (curOf cs).Open
        · rw [if_pos hdeath]
          rw [List.countP_append]
          have hs : ((spikeStep post tk (prevOf cs).time (curOf cs).time (prevOf cs) st).1.countP
              fun p => isEntryFor tick ts p.1) = 0 := by
            rw [spikeStep_fst]
            split
            · simp
            · simp [List.countP_cons, isEntryFor]
          have hd : ((deathStep post tk (curOf cs).time (prevOf cs) (curOf cs)
              (spikeStep post tk (prevOf cs).time (curOf cs).time (prevOf cs) st).2).1.countP
              fun p => isEntryFor tick ts p.1) ≤ 1 := by
            rw [deathStep_fst]
            split
            · simp
            · exact countP_singleton_le_one _ _
          omega
        · rw [if_neg hdeath, spikeStep_fst]
          split
          · simp
          · simp [List.countP_cons, isEntryFor]
      · rw [if_neg hmove]
        simp

/-- Once the spike key is recorded, no later evaluation ever emits a SPIKE
alert for it again. -/
theorem runEvals_spike_count_zero (post : Alert → Except String Unit)
    (tick : String) (ts : ℕ) :
    ∀ (evals : List (String × Option (List DCandle))) (st : AlertState),
      hasKey st.alerted_spikes (mkKey tick ts) = true →
      ((runEvals post evals st).1.countP fun p => isSpikeFor tick ts p.1) = 0 := by
  intro evals
  induction evals with
  | nil =>
    intro st h
    simp [runEvals]
  | cons ev rest ih =>
    intro st h
    obtain ⟨tk, df⟩ := ev
    simp only [runEvals]
    rw [List.countP_append]
    have hc : ((check_spike_and_death_candle post tk df st).1.countP
        fun p => isSpikeFor tick ts p.1) = 0 := by
      rw [List.countP_eq_zero]
      rintro ⟨a, b⟩ hab hspike
      obtain ⟨mv, vr, cp, rfl⟩ := (isSpikeFor_iff tick ts a).mp hspike
      have hem := check_emit_spike post tk df st b tick ts mv vr cp hab
      rw [h] at hem
      exact absurd hem.1 (by simp)
    rw [hc, ih _ (check_spikes_mono post tk df st _ h)]

/-- Once the death key is recorded, no later evaluation ever emits an
ENTRY SIGNAL alert for it again. -/
theorem runEvals_entry_count_zero (post : Alert → Except String Unit)
    (tick : String) (ts : ℕ) :
    ∀ (evals : List (String × Option (List DCandle))) (st : AlertState),
      hasKey st.alerted_deaths (mkKey tick ts) = true →
      ((runEvals post evals st).1.countP fun p => isEntryFor tick ts p.1) = 0 := by
  intro evals
  induction evals with
  | nil =>
    intro st h
    simp [runEvals]
  | cons ev rest ih =>
    intro st h
    obtain ⟨tk, df⟩ := ev
    simp only [runEvals]
    rw [List.countP_append]
    have hc : ((check_spike_and_death_candle post tk df st).1.countP
        fun p => isEntryFor tick ts p.1) = 0 := by
      rw [List.countP_eq_zero]
      rintro ⟨a, b⟩ hab hentry
      obtain ⟨e, s, r, rfl⟩ := (isEntryFor_iff tick ts a).mp hentry
      have hem := check_emit_entry post tk df st b tick ts e s r hab
      rw [h] at hem
      exact absurd hem.1 (by simp)
    rw [hc, ih _ (check_deaths_mono post tk df st _ h)]

/-- Across a whole run, at most one SPIKE alert is emitted per key. -/
theorem runEvals_spike_count_le_one (post : Alert → Except String Unit)
    (tick : String) (ts : ℕ) :
    ∀ (evals : List (String × Option (List DCandle))) (st : AlertState),
      ((runEvals post evals st).1.countP fun p => isSpikeFor tick ts p.1) ≤ 1 := by
  intro evals
  induction evals with
  | nil =>
    intro st
    simp [runEvals]
  | cons ev rest ih =>
    intro st
    obtain ⟨tk, df⟩ := ev
    simp only [runEvals]
    rw [List.countP_append]
    by_cases hc : ((check_spike_and_death_candle post tk df st).1.countP
        fun p => isSpikeFor tick ts p.1) = 0
    · rw [hc]
      simpa using ih _
    · obtain ⟨p, hp, hps⟩ := List.countP_pos_iff.mp (Nat.pos_of_ne_zero hc)
      obtain ⟨a, b⟩ := p
      obtain ⟨mv, vr, cp, rfl⟩ := (isSpikeFor_iff tick ts a).mp hps
      have hem := check_emit_spike post tk df st b tick ts mv vr cp hp
      have hz := runEvals_spike_count_zero post tick ts rest _ hem.2
      have hle := check_countP_spike_le_one post tk df st tick ts
      omega

/-- Across a whole run, at most one ENTRY SIGNAL alert is emitted per key. -/
theorem runEvals_entry_count_le_one (post : Alert → Except String Unit)
    (tick : String) (ts : ℕ) :
    ∀ (evals : List (String × Option (List DCandle))) (st : AlertState),
      ((runEvals post evals st).1.countP fun p => isEntryFor tick ts p.1) ≤ 1 := by
  intro evals
  induction evals with
  | nil =>
    intro st
    simp [runEvals]
  | cons ev rest ih =>
    intro st
    obtain ⟨tk, df⟩ := ev
    simp only [runEvals]
    rw [List.countP_append]
    by_cases hc : ((check_spike_and_death_candle post tk df st).1.countP
        fun p => isEntryFor tick ts p.1) = 0
    · rw [hc]
      simpa using ih _
    · obtain ⟨p, hp, hps⟩ := List.countP_pos_iff.mp (Nat.pos_of_ne_zero hc)
      obtain ⟨a, b⟩ := p
      obtain ⟨e, s, r, rfl⟩ := (isEntryFor_iff tick ts a).mp hps
      have hem := check_emit_entry post tk df st b tick ts e s r hp
      have hz := runEvals_entry_count_zero post tick ts rest _ hem.2
      have hle := check_countP_entry_le_one post tk df st tick ts
      omega

/-- After an evaluation whose spike branch ran, the spike key is recorded. -/
theorem check_after_spike_key (post : Alert → Except String Unit) (tk : String)
    (cs : List DCandle) (st : AlertState) (h2 : 2 ≤ cs.length)
    (hmove : 10 ≤ (prevOf cs).candle_move_pct) :
    hasKey (check_spike_and_death_candle post tk (some cs) st).2.alerted_spikes
      (mkKey tk (prevOf cs).time) = true := by
  rw [check_eq_of_two_le post tk cs st h2, if_pos hmove]
  by_cases hdeath : (curOf cs).Close < (curOf cs).Open
  · rw [if_pos hdeath, deathStep_spikes, spikeStep_snd]
    split
    · assumption
    · simp [hasKey_append]
  · rw [if_neg hdeath, spikeStep_snd]
    split
    · assumption
    · simp [hasKey_append]

/-- After an evaluation whose death branch ran, the death key is recorded. -/
theorem check_after_death_key (post : Alert → Except String Unit) (tk : String)
    (cs : List DCandle) (st : AlertState) (h2 : 2 ≤ cs.length)
    (hmove : 10 ≤ (prevOf cs).candle_move_pct)
    (hdeath : (curOf cs).Close < (curOf cs).Open) :
    hasKey (check_spike_and_death_candle post tk (some cs) st).2.alerted_deaths
      (mkKey tk (curOf cs).time) = true := by
  rw [check_eq_of_two_le post tk cs st h2, if_pos hmove, if_pos hdeath, deathStep_snd]
  split
  · assumption
  · simp [hasKey_append]

/-- Re-evaluating the same window right away — with any POST oracle —
emits nothing new. -/
theorem check_reeval_empty (post post' : Alert → Except String Unit) (tk : String)
    (df : Option (List DCandle)) (st : AlertState) :
    (check_spike_and_death_candle post' tk df
      (check_spike_and_death_candle post tk df st).2).1 = [] := by
  match df with
  | none => rfl
  | some cs =>
    by_cases h2 : cs.length < 2
    · simp [check_spike_and_death_candle, h2]
    · have h2' : 2 ≤ cs.length := by omega
      rw [check_eq_of_two_le post' tk cs _ h2']
      by_cases hmove : 10 ≤ (prevOf cs).candle_move_pct
      · rw [if_pos hmove]
        have hspike := check_after_spike_key post tk cs st h2' hmove
        by_cases hdeath : (curOf cs).Close < (curOf cs).Open
        · rw [if_pos hdeath]
          have hdk := check_after_death_key post tk cs st h2' hmove hdeath
          rw [spikeStep_fst, if_pos hspike, deathStep_fst, spikeStep_deaths, if_pos hdk]
          simp
        · rw [if_neg hdeath, spikeStep_fst, if_pos hspike]
      · rw [if_neg hmove]

/-! ## C1: at most one alert per key, ever -/

/-- C1: starting from the fresh in-memory state, any sequence of
evaluations across the process lifetime emits at most one SPIKE alert
keyed by a given (ticker, prev timestamp) and at most one ENTRY SIGNAL
alert keyed by a given (ticker, current timestamp); and re-evaluating the
same candle window immediately again emits nothing new. -/
theorem C1_at_most_one_alert_per_key (post : Alert → Except String Unit)
    (evals : List (String × Option (List DCandle))) (tick : String) (ts : ℕ) :
    (((runEvals post evals ⟨[], []⟩).1.countP fun p => isSpikeFor tick ts p.1) ≤ 1) ∧
    (((runEvals post evals ⟨[], []⟩).1.countP fun p => isEntryFor tick ts p.1) ≤ 1) ∧
    ∀ (tk : String) (df : Option (List DCandle)) (st : AlertState),
      (check_spike_and_death_candle post tk df
        (check_spike_and_death_candle post tk df st).2).1 = [] :=
  ⟨runEvals_spike_count_le_one post tick ts evals ⟨[], []⟩,
   runEvals_entry_count_le_one post tick ts evals ⟨[], []⟩,
   fun tk df st => check_reeval_empty post post tk df st⟩

/-! ## C7: the rolling volume window -/

/-- The derived row at index `i` of the frame, in terms of the raw row. -/
theorem addIndicators_getD (raw : List RawCandle) (i : ℕ) (h : i < raw.length) :
    (addIndicators raw).getD i default =
      { Open := (raw.getD i default).Open, High := (raw.getD i default).High,
        Low := (raw.getD i default).Low, Close := (raw.getD i default).Close,
        Volume := (raw.getD i default).Volume, time := (raw.getD i default).time,
        volume_avg_20 := rollingMean20 (raw.map fun c => c.Volume) i,
        volume_ratio := (rollingMean20 (raw.map fun c => c.Volume) i).map
          (fun a => (raw.getD i default).Volume / a),
        candle_move_pct := ((raw.getD i default).Close - (raw.getD i default).Open) /
          (raw.getD i default).Open * 100 } := by
  simp [addIndicators, List.getD_eq_getElem?_getD, List.getElem?_map, List.getElem?_range, h]

/-- C7 counterexample: in a 20-row frame of constant volume 1, the row at
index 19 has only 19 predecessors — fewer than 20 — yet its volume ratio
is already defined (pandas `rolling(20)` counts the row itself). -/
theorem C7_counterexample_19_predecessors :
    ((addIndicators ((List.range 20).map fun i =>
        ⟨1, 1, 1, 1, 1, i⟩)).getD 19 default).volume_ratio = some 1 := by
  rw [addIndicators_getD _ 19 (by simp)]
  simp only [rollingMean20, List.map_map]
  norm_num

/-- C7 (amended): the rolling volume average at row `i` spans the 20 rows
`i-19 .. i` including the row itself, so `volume_avg_20` and
`volume_ratio` are defined exactly when the row has at least 19
predecessors, and NaN (`none`) for the first 19 rows. -/
theorem C7_rolling_window_includes_current (raw : List RawCandle) (i : ℕ)
    (h : i < raw.length) :
    (((addIndicators raw).getD i default).volume_avg_20 = none ↔ i < 19) ∧
    (((addIndicators raw).getD i default).volume_ratio = none ↔ i < 19) ∧
    (19 ≤ i → ((addIndicators raw).getD i default).volume_avg_20 =
      some ((((raw.map fun c => c.Volume).take (i + 1)).drop (i - 19)).sum / 20)) := by
  rw [addIndicators_getD raw i h]
  rcases Nat.lt_or_ge i 19 with h19 | h19
  · have hn : ¬ 19 ≤ i := by omega
    simp [rollingMean20, hn, h19]
  · have hn : ¬ i < 19 := by omega
    simp [rollingMean20, h19, hn]

/-- Witness for the amended C7 at rows 18 and 19 of a 20-row frame. -/
theorem C7_rolling_window_includes_current_witness :
    (((addIndicators ((List.range 20).map fun i =>
        ⟨1, 1, 1, 1, 1, i⟩)).getD 18 default).volume_avg_20 = none ↔ (18 : ℕ) < 19) ∧
    (((addIndicators ((List.range 20).map fun i =>
        ⟨1, 1, 1, 1, 1, i⟩)).getD 19 default).volume_avg_20 = none ↔ (19 : ℕ) < 19) :=
  ⟨(C7_rolling_window_includes_current ((List.range 20).map fun i =>
      ⟨1, 1, 1, 1, 1, i⟩) 18 (by simp)).1,
   (C7_rolling_window_includes_current ((List.range 20).map fun i =>
      ⟨1, 1, 1, 1, 1, i⟩) 19 (by simp)).1⟩

/-! ## C8: per-ticker failure isolation -/

/-- C8: a ticker whose fetch raises is a no-op — the exception is caught
inside that ticker's evaluation — and every subsequent ticker of the same
cycle is still evaluated, from the very state the failing ticker received. -/
theorem C8_fetch_failure_isolated (post : Alert → Except String Unit)
    (fetches : String → Except String (List RawCandle)) (st : AlertState)
    (pre suf : List String) (bad : String) (e : String)
    (hbad : fetches bad = .error e) :
    check_spike_and_death_candle post bad (get_5min_candles (fetches bad) 100) st
      = ([], st) ∧
    run_cycle post fetches (pre ++ bad :: suf) st =
      ((run_cycle post fetches pre st).1 ++
        (run_cycle post fetches suf (run_cycle post fetches pre st).2).1,
       (run_cycle post fetches suf (run_cycle post fetches pre st).2).2) := by
  constructor
  · rw [hbad]
    rfl
  · induction pre generalizing st with
    | nil =>
      simp only [List.nil_append, run_cycle, hbad]
      simp [get_5min_candles, check_spike_and_death_candle, run_cycle]
    | cons hd tl ih =>
      simp only [List.cons_append, run_cycle, List.append_eq]
      rw [ih]
      simp [run_cycle, List.append_assoc]

/-- A fetch oracle where exactly the ticker "BAD" raises. -/
def fetchesW : String → Except String (List RawCandle) :=
  fun s => if s == "BAD" then Except.error "timeout" else Except.ok []

/-- Witness for C8: in the cycle A, BAD, B where BAD's fetch raises, BAD
is a no-op and B is still evaluated from the state A produced. -/
theorem C8_fetch_failure_isolated_witness :
    (check_spike_and_death_candle postOk "BAD"
        (get_5min_candles (fetchesW "BAD") 100) ⟨[], []⟩ = ([], ⟨[], []⟩)) ∧
    run_cycle postOk fetchesW (["A"] ++ "BAD" :: ["B"]) ⟨[], []⟩ =
      ((run_cycle postOk fetchesW ["A"] ⟨[], []⟩).1 ++
        (run_cycle postOk fetchesW ["B"]
          (run_cycle postOk fetchesW ["A"] ⟨[], []⟩).2).1,
       (run_cycle postOk fetchesW ["B"]
         (run_cycle postOk fetchesW ["A"] ⟨[], []⟩).2).2) :=
  C8_fetch_failure_isolated postOk fetchesW ⟨[], []⟩ ["A"] ["B"] "BAD" "timeout" rfl

/-! ## C9: delivery failures never propagate and are never retried -/

/-- The updated dedup state does not depend on the POST outcomes. -/
theorem check_snd_post_indep (post₁ post₂ : Alert → Except String Unit)
    (tk : String) (df : Option (List DCandle)) (st : AlertState) :
    (check_spike_and_death_candle post₁ tk df st).2 =
      (check_spike_and_death_candle post₂ tk df st).2 := by
  match df with
  | none => rfl
  | some cs =>
    by_cases h2 : cs.length < 2
    · simp [check_spike_and_death_candle, h2]
    · rw [check_eq_of_two_le post₁ tk cs st (by omega),
        check_eq_of_two_le post₂ tk cs st (by omega)]
      by_cases hmove : 10 ≤ (prevOf cs).candle_move_pct
      · rw [if_pos hmove, if_pos hmove]
        by_cases hdeath : (curOf cs).Close < (curOf cs).Open
        · rw [if_pos hdeath, if_pos hdeath]
          simp only [deathStep_snd, spikeStep_deaths, spikeStep_snd]
        · rw [if_neg hdeath, if_neg hdeath, spikeStep_snd, spikeStep_snd]
      · rw [if_neg hmove, if_neg hmove]

/-- The alerts attempted (delivery outcome stripped) do not depend on the
POST outcomes. -/
theorem check_fst_map_post_indep (post₁ post₂ : Alert → Except String Unit)
    (tk : String) (df : Option (List DCandle)) (st : AlertState) :
    (check_spike_and_death_candle post₁ tk df st).1.map Prod.fst =
      (check_spike_and_death_candle post₂ tk df st).1.map Prod.fst := by
  match df with
  | none => rfl
  | some cs =>
    by_cases h2 : cs.length < 2
    · simp [check_spike_and_death_candle, h2]
    · rw [check_eq_of_two_le post₁ tk cs st (by omega),
        check_eq_of_two_le post₂ tk cs st (by omega)]
      by_cases hmove : 10 ≤ (prevOf cs).candle_move_pct
      · rw [if_pos hmove, if_pos hmove]
        by_cases hdeath : (curOf cs).Close < (curOf cs).Open
        · rw [if_pos hdeath, if_pos hdeath]
          simp only [List.map_append, spikeStep_fst, deathStep_fst, spikeStep_deaths,
            spikeStep_snd]
          split <;> split <;> simp
        · rw [if_neg hdeath, if_neg hdeath, spikeStep_fst, spikeStep_fst]
          split <;> simp
      · rw [if_neg hmove, if_neg hmove]

/-- C9: `send_discord_alert` returns normally on success and failure
alike, so a delivery failure changes neither the dedup state nor which
alerts are attempted; the key of every attempted alert is recorded whether
or not its delivery succeeded, and a later re-evaluation of the same
window emits nothing — the dropped alert is never retried. -/
theorem C9_delivery_best_effort (post₁ post₂ : Alert → Except String Unit)
    (tk : String) (df : Option (List DCandle)) (st : AlertState) :
    ((check_spike_and_death_candle post₁ tk df st).2 =
      (check_spike_and_death_candle post₂ tk df st).2) ∧
    ((check_spike_and_death_candle post₁ tk df st).1.map Prod.fst =
      (check_spike_and_death_candle post₂ tk df st).1.map Prod.fst) ∧
    (∀ (a : Alert) (b : Bool), (a, b) ∈ (check_spike_and_death_candle post₁ tk df st).1 →
      (∀ (tick : String) (ts : ℕ) (mv : ℚ) (vr : Option ℚ) (cp : ℚ),
        a = Alert.spike tick ts mv vr cp →
        hasKey (check_spike_and_death_candle post₁ tk df st).2.alerted_spikes
          (mkKey tick ts) = true) ∧
      (∀ (tick : String) (ts : ℕ) (e s r : ℚ), a = Alert.entry tick ts e s r →
        hasKey (check_spike_and_death_candle post₁ tk df st).2.alerted_deaths
          (mkKey tick ts) = true)) ∧
    ((check_spike_and_death_candle post₂ tk df
      (check_spike_and_death_candle post₁ tk df st).2).1 = []) := by
  refine ⟨check_snd_post_indep post₁ post₂ tk df st,
    check_fst_map_post_indep post₁ post₂ tk df st, ?_,
    check_reeval_empty post₁ post₂ tk df st⟩
  intro a b hmem
  constructor
  · intro tick ts mv vr cp ha
    subst ha
    exact (check_emit_spike post₁ tk df st b tick ts mv vr cp hmem).2
  · intro tick ts e s r ha
    subst ha
    exact (check_emit_entry post₁ tk df st b tick ts e s r hmem).2

/-! ## C10: alert emission is independent of volume -/

/-- Adding the indicator columns preserves the everything-but-volume
relation: two frames equal except in volume stay equal except in the
volume-derived columns. -/
theorem addIndicators_rel (raws raws' : List RawCandle)
    (hrel : List.Forall₂ sameShape raws raws') :
    List.Forall₂ sameShapeD (addIndicators raws) (addIndicators raws') := by
  have hlen := hrel.length_eq
  obtain ⟨-, hget⟩ := List.forall₂_iff_get.mp hrel
  rw [addIndicators, addIndicators, ← hlen]
  rw [List.forall₂_map_left_iff, List.forall₂_map_right_iff, List.forall₂_same]
  intro i hi
  have hi₁ : i < raws.length := by simpa using hi
  have hi₂ : i < raws'.length := by omega
  have h := hget i hi₁ hi₂
  obtain ⟨e1, e2, e3, e4, e5⟩ := h
  rw [List.getD_eq_get raws default hi₁, List.getD_eq_get raws' default hi₂]
  exact ⟨e1, e2, e3, e4, e5, by dsimp only; rw [e1, e4]⟩

/-- The last two candles of related windows are related. -/
theorem sameShapeD_last_two (cs cs' : List DCandle)
    (hrel : List.Forall₂ sameShapeD cs cs') (h2 : 2 ≤ cs.length) :
    sameShapeD (prevOf cs) (prevOf cs') ∧ sameShapeD (curOf cs) (curOf cs') := by
  have hlen := hrel.length_eq
  obtain ⟨-, hget⟩ := List.forall₂_iff_get.mp hrel
  constructor
  · have h : cs.length - 2 < cs.length := by omega
    have h' : cs.length - 2 < cs'.length := by omega
    have hp := hget (cs.length - 2) h h'
    rw [prevOf, prevOf, ← hlen, List.getD_eq_get cs default h, List.getD_eq_get cs' default h']
    exact hp
  · have h : cs.length - 1 < cs.length := by omega
    have h' : cs.length - 1 < cs'.length := by omega
    have hc := hget (cs.length - 1) h h'
    rw [curOf, curOf, ← hlen, List.getD_eq_get cs default h, List.getD_eq_get cs' default h']
    exact hc

/-- One evaluation on two windows that agree on everything except the
volume columns follows the same branches, emits alerts with the same
identities, and produces the same dedup state. -/
theorem check_respects_sameShapeD (post : Alert → Except String Unit) (tk : String)
    (cs cs' : List DCandle) (st : AlertState)
    (hrel : List.Forall₂ sameShapeD cs cs') :
    ((check_spike_and_death_candle post tk (some cs) st).1.map (fun p => p.1.keyOf) =
      (check_spike_and_death_candle post tk (some cs') st).1.map (fun p => p.1.keyOf)) ∧
    (check_spike_and_death_candle post tk (some cs) st).2 =
      (check_spike_and_death_candle post tk (some cs') st).2 := by
  have hlen := hrel.length_eq
  by_cases h2 : cs.length < 2
  · have h2' : cs'.length < 2 := by omega
    simp [check_spike_and_death_candle, h2, h2']
  · obtain ⟨hprev, hcur⟩ := sameShapeD_last_two cs cs' hrel (by omega)
    obtain ⟨hpO, hpH, hpL, hpC, hpT, hpM⟩ := hprev
    obtain ⟨hcO, hcH, hcL, hcC, hcT, hcM⟩ := hcur
    rw [check_eq_of_two_le post tk cs st (by omega),
      check_eq_of_two_le post tk cs' st (by omega)]
    rw [← hpM, ← hcC, ← hcO, ← hpT, ← hcT]
    by_cases hmove : 10 ≤ (prevOf cs).candle_move_pct
    · rw [if_pos hmove, if_pos hmove]
      by_cases hdeath : (curOf cs).Close < (curOf cs).Open
      · rw [if_pos hdeath, if_pos hdeath]
        constructor
        · simp only [List.map_append]
          rw [spikeStep_fst, spikeStep_fst, deathStep_fst, deathStep_fst,
            spikeStep_deaths, spikeStep_deaths]
          rw [← hpM, ← hpC, ← hcO, ← hcC, ← hpH]
          by_cases hk1 : hasKey st.alerted_spikes (mkKey tk (prevOf cs).time)
          · by_cases hk2 : hasKey st.alerted_deaths (mkKey tk (curOf cs).time)
            · simp [hk1, hk2]
            · simp [hk1, hk2]
          · by_cases hk2 : hasKey st.alerted_deaths (mkKey tk (curOf cs).time)
            · simp [hk1, hk2, Alert.keyOf]
            · simp [hk1, hk2, Alert.keyOf]
        · rw [deathStep_snd, deathStep_snd, spikeStep_deaths, spikeStep_deaths,
            spikeStep_snd, spikeStep_snd]
      · rw [if_neg hdeath, if_neg hdeath]
        constructor
        · rw [spikeStep_fst, spikeStep_fst]
          rw [← hpM, ← hpC]
          by_cases hk1 : hasKey st.alerted_spikes (mkKey tk (prevOf cs).time)
          · simp [hk1]
          · simp [hk1, Alert.keyOf]
        · rw [spikeStep_snd, spikeStep_snd]
    · rw [if_neg hmove, if_neg hmove]
      exact ⟨rfl, rfl⟩

/-- C10: for two fetched windows identical except in their volumes (hence
also in volume_avg/volume_ratio), the evaluation emits alerts with exactly
the same identities — kind, ticker and keyed timestamp — and leaves the
same dedup state: volume never gates an alert, it only shows in the spike
alert's body. -/
theorem C10_volume_never_gates_alerts (post : Alert → Except String Unit)
    (tk : String) (raws raws' : List RawCandle) (st : AlertState)
    (hrel : List.Forall₂ sameShape raws raws') :
    ((check_spike_and_death_candle post tk
        (get_5min_candles (.ok raws) 100) st).1.map (fun p => p.1.keyOf) =
      (check_spike_and_death_candle post tk
        (get_5min_candles (.ok raws') 100) st).1.map (fun p => p.1.keyOf)) ∧
    (check_spike_and_death_candle post tk (get_5min_candles (.ok raws) 100) st).2 =
      (check_spike_and_death_candle post tk (get_5min_candles (.ok raws') 100) st).2 := by
  have hlen := hrel.length_eq
  match raws, raws', hrel with
  | [], [], _ => exact ⟨rfl, rfl⟩
  | a :: l, b :: m, hrel =>
    simp only [get_5min_candles, List.isEmpty_cons, Bool.false_eq_true, if_false]
    rw [show (b :: m).length = (a :: l).length from hlen.symm]
    exact check_respects_sameShapeD post tk _ _ st
      (List.forall₂_drop ((a :: l).length - 100) (addIndicators_rel _ _ hrel))

/-- Witness for C10: two-candle windows differing only in volume
(5, 7 against 50, 70) produce alerts with the same identities and the
same state. -/
theorem C10_volume_never_gates_alerts_witness :
    ((check_spike_and_death_candle postOk "TSLA"
        (get_5min_candles (.ok [⟨10, 12, 9, 12, 5, 1⟩, ⟨10, 10, 8, 9, 7, 2⟩]) 100)
        ⟨[], []⟩).1.map (fun p => p.1.keyOf) =
      (check_spike_and_death_candle postOk "TSLA"
        (get_5min_candles (.ok [⟨10, 12, 9, 12, 50, 1⟩, ⟨10, 10, 8, 9, 70, 2⟩]) 100)
        ⟨[], []⟩).1.map (fun p => p.1.keyOf)) ∧
    (check_spike_and_death_candle postOk "TSLA"
        (get_5min_candles (.ok [⟨10, 12, 9, 12, 5, 1⟩, ⟨10, 10, 8, 9, 7, 2⟩]) 100)
        ⟨[], []⟩).2 =
      (check_spike_and_death_candle postOk "TSLA"
        (get_5min_candles (.ok [⟨10, 12, 9, 12, 50, 1⟩, ⟨10, 10, 8, 9, 70, 2⟩]) 100)
        ⟨[], []⟩).2 :=
  C10_volume_never_gates_alerts postOk "TSLA"
    [⟨10, 12, 9, 12, 5, 1⟩, ⟨10, 10, 8, 9, 7, 2⟩]
    [⟨10, 12, 9, 12, 50, 1⟩, ⟨10, 10, 8, 9, 70, 2⟩] ⟨[], []⟩
    (List.Forall₂.cons ⟨rfl, rfl, rfl, rfl, rfl⟩
      (List.Forall₂.cons ⟨rfl, rfl, rfl, rfl, rfl⟩ List.Forall₂.nil))
